import Mathlib

/-!
Verification development for the toonana comic-generation pipeline
(`src-tauri/src/comic.rs`, `gemini.rs`, `ollama.rs`, `lib.rs`).

The Rust code is shallowly embedded as pure Lean functions:

* JSON values (`serde_json::Value`) become the `Json` inductive with
  association-list objects; object iteration follows list order.
* The recursive image extractors `find_image_data`, `find_http_uri` and
  their helpers are translated clause by clause from `gemini.rs`.
* The base64 codec used through the `base64` crate's STANDARD engine is
  modelled byte-exactly (RFC 4648 alphabet, canonical `=` padding).
* The asynchronous orchestrator `create_comic_job` is embedded as a
  function from an environment that records the outcomes of all external
  interactions (database read, Ollama stream, nano-banana renderer,
  Gemini endpoints) to the ordered list of statuses it inserts into the
  status registry (`DashMap`).  Wall-clock timestamps (`updated_at`) are
  produced by the system clock and are not modelled.
-/

namespace Toonana

/-- JSON values as consumed by the extraction code (`serde_json::Value`).
Objects are association lists; `map.iter()` order is the list order. -/
inductive Json where
  | null
  | bool (b : Bool)
  | num (n : Int)
  | str (s : String)
  | arr (elems : List Json)
  | obj (fields : List (String × Json))
deriving Repr

/-- Field lookup on an object's association list (`Map::get`). -/
def getField : List (String × Json) → String → Option Json
  | [], _ => none
  | (k, v) :: rest, key => if k = key then some v else getField rest key

/-- `Value::get(key)`: field lookup, `None` on non-objects. -/
def Json.get? : Json → String → Option Json
  | .obj fields, key => getField fields key
  | _, _ => none

/-- `Value::as_str()`. -/
def Json.asStr? : Json → Option String
  | .str s => some s
  | _ => none

/-- `Value::as_array()`. -/
def Json.asArr? : Json → Option (List Json)
  | .arr xs => some xs
  | _ => none

/-- `str::starts_with`. -/
def strStartsWith (s p : String) : Bool := p.data.isPrefixOf s.data

/-- First-some choice on option strings, mirroring the early `return`s of
the Rust extractors. -/
def orO : Option String → Option String → Option String
  | some s, _ => some s
  | none, b => b

/-- `Option::or_else` on JSON values. -/
def orJ : Option Json → Option Json → Option Json
  | some v, _ => some v
  | none, b => b

mutual
/-- `find_data_uri_in_any_string` (gemini.rs): scan every string value of a
fragment for one starting with `data:image/`. -/
def findDataUriInAnyString : Json → Option String
  | .str s => if strStartsWith s "data:image/" then some s else none
  | .arr xs => findDataUriList xs
  | .obj fields => findDataUriFields fields
  | _ => none

/-- Array part of `find_data_uri_in_any_string`. -/
def findDataUriList : List Json → Option String
  | [] => none
  | x :: rest => orO (findDataUriInAnyString x) (findDataUriList rest)

/-- Object part of `find_data_uri_in_any_string`. -/
def findDataUriFields : List (String × Json) → Option String
  | [] => none
  | (_, v) :: rest => orO (findDataUriInAnyString v) (findDataUriFields rest)
end

/-- The `inline.get("data").and_then(as_str)` non-empty check applied to an
optional inline-data object. -/
def inlineDataOf (o : Option Json) : Option String :=
  match o with
  | some inline =>
    match (inline.get? "data").bind Json.asStr? with
    | some data => if data = "" then none else some data
    | none => none
  | none => none

/-- A direct string field that must be non-empty
(`bytesBase64Encoded` / `b64_json` checks). -/
def strFieldOf (o : Option Json) : Option String :=
  match o.bind Json.asStr? with
  | some s => if s = "" then none else some s
  | none => none

/-- The `media[].inlineData.data` scan. -/
def mediaScan : List Json → Option String
  | [] => none
  | m :: rest =>
    orO (inlineDataOf (orJ (m.get? "inlineData") (m.get? "inline_data"))) (mediaScan rest)

/-- The `dataUris` / `data_uris` scan: first non-empty string entry. -/
def dataUriScan : List Json → Option String
  | [] => none
  | s :: rest =>
    match s.asStr? with
    | some u => if u = "" then dataUriScan rest else some u
    | none => dataUriScan rest

/-- The `fileData.fileUri` check for a `data:` URI. -/
def fileUriDataCheck (o : Option Json) : Option String :=
  match o with
  | some fd =>
    match (orJ (fd.get? "fileUri") (fd.get? "file_uri")).bind Json.asStr? with
    | some uri => if strStartsWith uri "data:" then some uri else none
    | none => none
  | none => none

/-- The in-object checks of `find_image_data` (gemini.rs lines 39-97), in
source order: inlineData / inline_data, bytesBase64Encoded / b64_json,
media list, dataUris / data_uris, fileData data-URIs, then the any-string
fallback scan over the whole object. -/
def directImageChecks (v : Json) : Option String :=
  match v with
  | .obj _ =>
    orO (inlineDataOf (v.get? "inlineData"))
    (orO (inlineDataOf (v.get? "inline_data"))
    (orO (strFieldOf (v.get? "bytesBase64Encoded"))
    (orO (strFieldOf (v.get? "b64_json"))
    (orO (match (v.get? "media").bind Json.asArr? with
          | some ms => mediaScan ms
          | none => none)
    (orO (match (v.get? "dataUris").bind Json.asArr? with
          | some xs => dataUriScan xs
          | none => none)
    (orO (match (v.get? "data_uris").bind Json.asArr? with
          | some xs => dataUriScan xs
          | none => none)
    (orO (fileUriDataCheck (v.get? "fileData"))
    (orO (fileUriDataCheck (v.get? "file_data"))
         (findDataUriInAnyString v)))))))))
  | _ => none

mutual
/-- `find_image_data` (gemini.rs): the in-object checks first, then a
first-match-wins recursion into arrays and object values. -/
def find_image_data : Json → Option String
  | .obj fields => orO (directImageChecks (.obj fields)) (findImageFields fields)
  | .arr xs => findImageList xs
  | _ => none

/-- Array recursion of `find_image_data`. -/
def findImageList : List Json → Option String
  | [] => none
  | x :: rest => orO (find_image_data x) (findImageList rest)

/-- Object-value recursion of `find_image_data`. -/
def findImageFields : List (String × Json) → Option String
  | [] => none
  | (_, v) :: rest => orO (find_image_data v) (findImageFields rest)
end

/-- `uri.starts_with("http://") || uri.starts_with("https://")`. -/
def httpPrefixed (u : String) : Bool :=
  strStartsWith u "http://" || strStartsWith u "https://"

/-- The `fileData.fileUri` check for an http(s) URI. -/
def fileUriHttpCheck (o : Option Json) : Option String :=
  match o with
  | some fd =>
    match (orJ (fd.get? "fileUri") (fd.get? "file_uri")).bind Json.asStr? with
    | some uri => if httpPrefixed uri then some uri else none
    | none => none
  | none => none

/-- The `dataUris` scan of `find_http_uri`: first http(s) string entry. -/
def httpUriScan : List Json → Option String
  | [] => none
  | s :: rest =>
    match s.asStr? with
    | some u => if httpPrefixed u then some u else httpUriScan rest
    | none => httpUriScan rest

/-- The in-object checks of `find_http_uri` (gemini.rs lines 212-238). -/
def directHttpChecks (v : Json) : Option String :=
  match v with
  | .obj _ =>
    orO (fileUriHttpCheck (v.get? "fileData"))
    (orO (fileUriHttpCheck (v.get? "file_data"))
    (orO (match (v.get? "dataUris").bind Json.asArr? with
          | some xs => httpUriScan xs
          | none => none)
         (match (v.get? "data_uris").bind Json.asArr? with
          | some xs => httpUriScan xs
          | none => none)))
  | _ => none

mutual
/-- `find_http_uri` (gemini.rs): captures a fetchable http(s) file URI. -/
def find_http_uri : Json → Option String
  | .obj fields => orO (directHttpChecks (.obj fields)) (findHttpFields fields)
  | .arr xs => findHttpList xs
  | _ => none

/-- Array recursion of `find_http_uri`. -/
def findHttpList : List Json → Option String
  | [] => none
  | x :: rest => orO (find_http_uri x) (findHttpList rest)

/-- Object-value recursion of `find_http_uri`. -/
def findHttpFields : List (String × Json) → Option String
  | [] => none
  | (_, v) :: rest => orO (find_http_uri v) (findHttpFields rest)
end

/-! ### Base64 (the `base64` crate's STANDARD engine, RFC 4648) -/

/-- The standard base64 alphabet. -/
def b64Alphabet : List Char :=
  "ABCDEFGHIJKLMNOPQRSTUVWXYZabcdefghijklmnopqrstuvwxyz0123456789+/".data

/-- Encode one 6-bit group. -/
def sextetToChar (n : Nat) : Char := b64Alphabet.getD n 'A'

/-- Position scan used to decode one symbol. -/
def sextetOfAux (c : Char) : List Char → Nat → Option Nat
  | [], _ => none
  | d :: rest, i => if d = c then some i else sextetOfAux c rest (i + 1)

/-- Decode one base64 symbol to its 6-bit value. -/
def sextetOf (c : Char) : Option Nat := sextetOfAux c b64Alphabet 0

/-- Standard base64 encoding of a byte sequence (bytes as `Nat < 256`),
with canonical `=` padding, as produced by `B64.encode`. -/
def b64EncodeBytes : List Nat → List Char
  | [] => []
  | [a] => [sextetToChar (a / 4), sextetToChar (a % 4 * 16), '=', '=']
  | [a, b] =>
    [sextetToChar (a / 4), sextetToChar (a % 4 * 16 + b / 16), sextetToChar (b % 16 * 4), '=']
  | a :: b :: c :: rest =>
    sextetToChar (a / 4) :: sextetToChar (a % 4 * 16 + b / 16) ::
    sextetToChar (b % 16 * 4 + c / 64) :: sextetToChar (c % 64) :: b64EncodeBytes rest

/-- Standard base64 decoding (`B64.decode`): four-symbol groups, canonical
padding required, trailing bits rejected. -/
def b64DecodeChunks : List Char → Except String (List Nat)
  | [] => .ok []
  | c1 :: c2 :: c3 :: c4 :: rest =>
    match sextetOf c1, sextetOf c2 with
    | some s1, some s2 =>
      if c3 = '=' then
        if c4 = '=' then
          if rest = [] then
            if s2 % 16 = 0 then .ok [s1 * 4 + s2 / 16]
            else .error "base64 decode: Invalid last symbol"
          else .error "base64 decode: Invalid byte"
        else .error "base64 decode: Invalid byte"
      else
        match sextetOf c3 with
        | some s3 =>
          if c4 = '=' then
            if rest = [] then
              if s3 % 4 = 0 then .ok [s1 * 4 + s2 / 16, s2 % 16 * 16 + s3 / 4]
              else .error "base64 decode: Invalid last symbol"
            else .error "base64 decode: Invalid byte"
          else
            match sextetOf c4 with
            | some s4 =>
              match b64DecodeChunks rest with
              | .ok tail =>
                .ok ((s1 * 4 + s2 / 16) :: (s2 % 16 * 16 + s3 / 4) :: (s3 % 4 * 64 + s4) :: tail)
              | .error e => .error e
            | none => .error "base64 decode: Invalid byte"
        | none => .error "base64 decode: Invalid byte"
    | _, _ => .error "base64 decode: Invalid byte"
  | _ => .error "base64 decode: Invalid length"

/-- The tail of a character list after its first comma, if any
(`s.find(",")` followed by slicing at `idx + 1`). -/
def afterComma? : List Char → Option (List Char)
  | [] => none
  | c :: rest => if c = ',' then some rest else afterComma? rest

/-- `decode_base64_png` (comic.rs): strip an optional data-URI prefix up to
and including the first comma, then base64-decode. -/
def decode_base64_png (s : String) : Except String (List Nat) :=
  b64DecodeChunks ((afterComma? s.data).getD s.data)

/-- `guess_image_extension` (comic.rs): magic-byte sniffing with a PNG
default. -/
def guess_image_extension (bytes : List Nat) : String :=
  if 8 ≤ bytes.length ∧ bytes.take 8 = [0x89, 0x50, 0x4E, 0x47, 0x0D, 0x0A, 0x1A, 0x0A] then
    "png"
  else if 3 ≤ bytes.length ∧ bytes.take 3 = [0xFF, 0xD8, 0xFF] then
    "jpg"
  else if 12 ≤ bytes.length ∧ bytes.take 4 = [0x52, 0x49, 0x46, 0x46]
      ∧ (bytes.drop 8).take 4 = [0x57, 0x45, 0x42, 0x50] then
    "webp"
  else
    "png"

/-! ### Streaming image producer (`generate_image_stream_progress`) -/

/-- Everything external that determines one run of the Gemini streaming
image call: `pre` is a failure before any line is read (missing API key,
request error, non-success HTTP status); `lines` are the complete
newline-terminated NDJSON lines, each parsed (`none` = blank or
malformed, silently skipped); `midErr` is a byte-stream error arriving
after those lines; `fetch` resolves a captured http(s) file URI to raw
bytes. -/
structure GemStreamSpec where
  pre : Option String
  lines : List (Option Json)
  midErr : Option String
  fetch : String → Except String (List Nat)

/-- The per-line progress nudge (gemini.rs lines 272-277): starting from
`p`, every newline bumps progress by 2 while it is below 98. -/
def rampProgress (p : Nat) : List (Option Json) → List (Nat × Nat)
  | [] => []
  | _ :: rest =>
    if p < 98 then (p + 2, 100) :: rampProgress (p + 2) rest
    else rampProgress p rest

/-- The stream scan (gemini.rs lines 197-268): the most recently seen
inline image datum wins, while only the first http file URI is kept. -/
def scanLines : List (Option Json) → Option String → Option String →
    Option String × Option String
  | [], b, u => (b, u)
  | none :: rest, b, u => scanLines rest b u
  | some j :: rest, b, u =>
    scanLines rest
      (match find_image_data j with
       | some s => some s
       | none => b)
      (match u with
       | some _ => u
       | none => find_http_uri j)

/-- `generate_image_stream_progress` (gemini.rs): returns the emitted
progress events and the result.  On success the result is the base64
image datum (or the base64 of the fetched URI bytes). -/
def gemStreamRun (g : GemStreamSpec) : List (Nat × Nat) × Except String String :=
  match g.pre with
  | some e => ([], .error e)
  | none =>
    let evs := (1, 100) :: rampProgress 1 g.lines
    match g.midErr with
    | some e => (evs, .error ("gemini stream error: " ++ e))
    | none =>
      match scanLines g.lines none none with
      | (some b64, _) => (evs ++ [(99, 100), (100, 100)], .ok b64)
      | (none, some uri) =>
        match g.fetch uri with
        | .ok bytes =>
          (evs ++ [(99, 100), (100, 100)], .ok (String.mk (b64EncodeBytes bytes)))
        | .error e => (evs ++ [(99, 100)], .error ("gemini stream: fetch uri failed: " ++ e))
      | (none, none) => (evs ++ [(99, 100)], .error "gemini stream: no image data received")

/-- `generate_image_with_progress` (gemini.rs lines 649-660): run the
streaming call; on any streaming error fall back to the non-streaming
call, whose outcome is the `once` argument (the streaming error itself
is discarded). -/
def generate_image_with_progress (g : GemStreamSpec) (once : Except String String) :
    List (Nat × Nat) × Except String String :=
  match gemStreamRun g with
  | (evs, .ok b) => (evs, .ok b)
  | (evs, .error _) =>
    (evs,
     match once with
     | .ok s => .ok s
     | .error e => .error ("gemini image failed: " ++ e))

/-! ### Streaming text producer (`ollama.rs::generate_streaming`) -/

/-- Modelled from the `http` crate: `StatusCode`'s display form is the
numeric code followed by its canonical reason phrase.  Covers the codes
this development instantiates. -/
def statusReason (code : Nat) : Option String :=
  if code = 400 then some "Bad Request"
  else if code = 401 then some "Unauthorized"
  else if code = 403 then some "Forbidden"
  else if code = 404 then some "Not Found"
  else if code = 429 then some "Too Many Requests"
  else if code = 500 then some "Internal Server Error"
  else if code = 502 then some "Bad Gateway"
  else if code = 503 then some "Service Unavailable"
  else none

/-- Display form of an HTTP status (`format!("{}", resp.status())`). -/
def statusDisplay (code : Nat) : String :=
  match statusReason code with
  | some r => toString code ++ " " ++ r
  | none => toString code ++ " <unknown status code>"

/-- `StatusCode::is_success()`: 2xx. -/
def isSuccessStatus (code : Nat) : Prop := 200 ≤ code ∧ code ≤ 299

instance (code : Nat) : Decidable (isSuccessStatus code) := by
  unfold isSuccessStatus; infer_instance

/-- An Ollama `/api/generate` streaming response: HTTP status, the parsed
NDJSON lines (including the final unterminated line, `none` = blank or
malformed), and an optional byte-stream error after those lines. -/
structure OllamaResp where
  status : Nat
  lines : List (Option Json)
  midErr : Option String

/-- The chunk extraction of `generate_streaming`: each parsed line's
non-empty `response` string is delivered to the callback in order. -/
def ollamaChunksOf (lines : List (Option Json)) : List String :=
  lines.filterMap fun l =>
    match l with
    | some j =>
      match (j.get? "response").bind Json.asStr? with
      | some s => if s = "" then none else some s
      | none => none
    | none => none

/-- `generate_streaming` (ollama.rs lines 137-220): returns the chunks
delivered to the callback and the final result.  404 and 502 are mapped
to the user-actionable unreachable-server message; any other non-success
status becomes a generic HTTP error. -/
def generate_streaming (resp : Except String OllamaResp) :
    List String × Except String Unit :=
  match resp with
  | .error e => ([], .error ("ollama request failed: " ++ e))
  | .ok r =>
    if r.status = 404 ∨ r.status = 502 then
      ([], .error "Ollama server not reachable. Is it running on port 11434?")
    else if ¬ isSuccessStatus r.status then
      ([], .error ("ollama error: HTTP " ++ statusDisplay r.status))
    else
      match r.midErr with
      | some e => (ollamaChunksOf r.lines, .error ("stream error: " ++ e))
      | none => (ollamaChunksOf r.lines, .ok ())

/-! ### The comic job orchestrator (`comic.rs::create_comic_job`) -/

/-- `ComicStage` (comic.rs). -/
inductive ComicStage where
  | queued
  | parsing
  | storyboarding
  | prompting
  | rendering (completed : Nat) (total : Nat)
  | saving
  | done
  | failed (error : String)
deriving DecidableEq, Repr

/-- `ComicJobStatus` (comic.rs).  `updated_at` comes from the wall clock
and is not modelled. -/
structure ComicJobStatus where
  job_id : String
  entry_id : String
  style : String
  stage : ComicStage
  result_image_path : Option String
  storyboard_text : Option String
deriving DecidableEq, Repr

/-- Everything external that determines one run of a comic job:
the database read of the entry body, the Ollama streaming call, whether
the nano-banana renderer is configured, how many 800 ms heartbeat ticks
elapse before its response, its outcome, the Gemini streaming call's
environment and the Gemini non-streaming call's outcome. -/
structure ComicEnv where
  job_id : String
  entry_id : String
  style : String
  data_root : String
  nanoConfigured : Bool
  entryBody : Except String String
  ollama : Except String OllamaResp
  nanoTicks : Nat
  nanoResult : Except String String
  gem : GemStreamSpec
  geminiOnce : Except String String

/-- One status record as inserted by the job (`status_map.insert`). -/
def mkStatus (env : ComicEnv) (stage : ComicStage) (path : Option String)
    (sb : Option String) : ComicJobStatus :=
  ⟨env.job_id, env.entry_id, env.style, stage, path, sb⟩

/-- The chunks the Ollama stream delivers to the orchestrator callback. -/
def chunksOf (env : ComicEnv) : List String := (generate_streaming env.ollama).1

/-- The Ollama stream's final result seen by the orchestrator. -/
def ollamaResultOf (env : ComicEnv) : Except String Unit := (generate_streaming env.ollama).2

/-- The storyboard accumulated over all delivered chunks
(`storyboard_text.push_str(chunk)` for each chunk). -/
def finalStoryboard (env : ComicEnv) : String :=
  (chunksOf env).foldl (fun a c => a ++ c) ""

/-- The Prompting statuses re-published per chunk: each insert carries the
accumulator extended by the newly arrived chunk. -/
def promptingAccum (env : ComicEnv) (acc : String) : List String → List ComicJobStatus
  | [] => []
  | chunk :: rest =>
    mkStatus env .prompting none (some (acc ++ chunk)) ::
      promptingAccum env (acc ++ chunk) rest

/-- The nano-banana wait loop (comic.rs lines 257-277): each elapsed tick
bumps `tick_completed` by 2 (capped at 98) and publishes a Rendering
status; returns the published values and the final tick. -/
def nanoTickRun : Nat → Nat → List Nat × Nat
  | 0, t => ([], t)
  | k + 1, t =>
    if t < 98 then
      (min (t + 2) 98 :: (nanoTickRun k (min (t + 2) 98)).1, (nanoTickRun k (min (t + 2) 98)).2)
    else
      nanoTickRun k t

/-- The progress filter of the orchestrator (comic.rs lines 290-302):
publish only progress that exceeds the last published tick and is a
multiple of 5. -/
def filterTicks (lastTick : Nat) : List (Nat × Nat) → List (Nat × Nat)
  | [] => []
  | (c, t) :: rest =>
    if lastTick < c ∧ c % 5 = 0 then (c, t) :: filterTicks c rest
    else filterTicks lastTick rest

/-- Rendering phase (comic.rs lines 250-324): either nano-banana with
heartbeat ticks and a Gemini fallback, or the Gemini chain directly.
Returns the Rendering statuses published during the phase and the image
result. -/
def renderPhase (env : ComicEnv) (sb : String) :
    List ComicJobStatus × Except String String :=
  if env.nanoConfigured then
    let ticks := nanoTickRun env.nanoTicks 0
    let tickWrites := ticks.1.map fun t => mkStatus env (.rendering t 100) none (some sb)
    match env.nanoResult with
    | .ok s => (tickWrites, .ok s)
    | .error e =>
      let gem := generate_image_with_progress env.gem env.geminiOnce
      let gw := (filterTicks ticks.2 gem.1).map
        fun p => mkStatus env (.rendering p.1 p.2) none (some sb)
      (tickWrites ++ gw,
       match gem.2 with
       | .ok s => .ok s
       | .error ge =>
         .error ("nano-banana failed: " ++ e ++ "; gemini fallback failed: " ++ ge))
  else
    let gem := generate_image_with_progress env.gem env.geminiOnce
    let gw := (filterTicks 0 gem.1).map
      fun p => mkStatus env (.rendering p.1 p.2) none (some sb)
    (gw, gem.2)

/-- Path where the generated image is written
(`images_dir.join(format job_id-result.ext)`); '/' stands for the
platform separator. -/
def imgPath (env : ComicEnv) (ext : String) : String :=
  env.data_root ++ "/images/" ++ env.entry_id ++ "/" ++ env.job_id ++ "-result." ++ ext

/-- The statuses inserted after the rendering phase resolves (comic.rs
lines 326-383): decode the image and either save it and finish, or
record the decode / generation failure.  Every write here carries the
frozen storyboard text. -/
def savedTail (env : ComicEnv) : List ComicJobStatus :=
  match (renderPhase env (finalStoryboard env)).2 with
  | .ok b64img =>
    match decode_base64_png b64img with
    | .ok bytes =>
      [mkStatus env .saving (some (imgPath env (guess_image_extension bytes)))
         (some (finalStoryboard env)),
       mkStatus env .done (some (imgPath env (guess_image_extension bytes)))
         (some (finalStoryboard env))]
    | .error e =>
      [mkStatus env (.failed ("image decode failed: " ++ e)) none
         (some (finalStoryboard env))]
  | .error e =>
    [mkStatus env (.failed ("image generation failed: " ++ e)) none
       (some (finalStoryboard env))]

/-- The statuses inserted by the spawned job task of `create_comic_job`
(comic.rs lines 113-384), in program order. -/
def comicTaskTrace (env : ComicEnv) : List ComicJobStatus :=
  mkStatus env .parsing none none ::
  mkStatus env .storyboarding none none ::
  match env.entryBody with
  | .error e => [mkStatus env (.failed ("load entry failed: " ++ e)) none none]
  | .ok _ =>
    mkStatus env .prompting none none ::
    promptingAccum env "" (chunksOf env) ++
    match ollamaResultOf env with
    | .error e => [mkStatus env (.failed ("ollama prompting failed: " ++ e)) none none]
    | .ok _ =>
      mkStatus env (.rendering 1 1) none (some (finalStoryboard env)) ::
      (renderPhase env (finalStoryboard env)).1 ++ savedTail env

/-- The full write sequence for a job: the Queued insert performed by the
submitting command (lib.rs line 791) followed by the task's writes. -/
def fullTrace (env : ComicEnv) : List ComicJobStatus :=
  mkStatus env .queued none none :: comicTaskTrace env

/-! ### Observables used by the claims -/

/-- Position of a stage in the pipeline ordering; `failed` is terminal and
ranks above every pipeline stage. -/
def stageRank : ComicStage → Nat
  | .queued => 0
  | .parsing => 1
  | .storyboarding => 2
  | .prompting => 3
  | .rendering _ _ => 4
  | .saving => 5
  | .done => 6
  | .failed _ => 7

/-- Admissible successive writes: the stage rank never decreases, and
between two Rendering writes the `completed` counter never decreases. -/
def stepOK (s₁ s₂ : ComicJobStatus) : Prop :=
  stageRank s₁.stage ≤ stageRank s₂.stage ∧
  ∀ c₁ t₁ c₂ t₂, s₁.stage = .rendering c₁ t₁ → s₂.stage = .rendering c₂ t₂ → c₁ ≤ c₂

/-- Terminal stages. -/
def isTerminal : ComicStage → Bool
  | .done => true
  | .failed _ => true
  | _ => false

/-- Growth step for published storyboard texts: a value, once published,
may only be extended. -/
def sbStep (a b : Option String) : Prop :=
  match a, b with
  | none, _ => True
  | some s, some t => ∃ u, t = s ++ u
  | some _, none => False

/-- Contiguous-substring scan over character lists. -/
def subScan (n : List Char) : List Char → Bool
  | [] => n.isEmpty
  | c :: rest => n.isPrefixOf (c :: rest) || subScan n rest

/-- Substring test used to state what an error message reports. -/
def containsSub (needle hay : String) : Bool := subScan needle.data hay.data

/-- The claim of C8 as stated: every status published after the last
Prompting write carries the storyboard text of that last Prompting
write. -/
def storyboardFreezes (tr : List ComicJobStatus) : Prop :=
  ∀ l₁ p l₂, tr = l₁ ++ p :: l₂ → p.stage = .prompting →
    (∀ q ∈ l₂, q.stage ≠ .prompting) → ∀ q ∈ l₂, q.storyboard_text = p.storyboard_text

/-- Whether a stage is a Rendering stage. -/
def isRenderStage : ComicStage → Bool
  | .rendering _ _ => true
  | _ => false

/-- Whether a stage is the Failed stage. -/
def isFailedStage : ComicStage → Bool
  | .failed _ => true
  | _ => false

/-- Whether a stage is the Prompting stage. -/
def isPromptingStage : ComicStage → Bool
  | .prompting => true
  | _ => false

/-! ### Concrete instances used by the claims -/

/-- Fetch oracle for scenarios in which no file URI is ever fetched. -/
def dummyFetch : String → Except String (List Nat) := fun _ => .error "unreachable"

/-- A streamed line carrying no image (C4). -/
def lineNoImg : Json := .obj [("text", .str "thinking")]

/-- A streamed line with inline image data "AAA" (C4). -/
def lineAAA : Json := .obj [("inlineData", .obj [("data", .str "AAA")])]

/-- A streamed line with inline image data "BBB" (C4). -/
def lineBBB : Json := .obj [("inlineData", .obj [("data", .str "BBB")])]

/-- A fragment with no inline-data field under any known spelling, but a
`data:image/...` URI string nested three levels deep (C5). -/
def fragC5 : Json :=
  .obj [("a", .obj [("b", .obj [("c", .str "data:image/png;base64,Zm9v")])])]

/-- A 200 Ollama response that delivers no chunks and ends cleanly. -/
def okOllamaEmpty : OllamaResp := ⟨200, [], none⟩

/-- A 200 Ollama response delivering one chunk "abc" and then a stream
error "boom" (C8). -/
def ollamaAbc : OllamaResp :=
  ⟨200, [some (.obj [("response", .str "abc")])], some "boom"⟩

/-- C3 scenario: remote renderer unconfigured, streaming endpoint yields
no image, non-streaming endpoint returns the image "Zm9v". -/
def envC3 : ComicEnv :=
  ⟨"job-1", "entry-1", "comic", "/data", false, .ok "entry text", .ok okOllamaEmpty,
   0, .error "unused", ⟨none, [], none, dummyFetch⟩, .ok "Zm9v"⟩

/-- C6 scenario: every provider attempt fails — the remote renderer with
cause NANOCAUSE, the streaming endpoint with cause STREAMCAUSE, the
non-streaming endpoint with cause ONCECAUSE. -/
def envC6 : ComicEnv :=
  ⟨"job-2", "entry-2", "comic", "/data", true, .ok "entry text", .ok okOllamaEmpty,
   0, .error "NANOCAUSE", ⟨none, [], some "STREAMCAUSE", dummyFetch⟩, .error "ONCECAUSE"⟩

/-- The error string the C6 scenario records in `Failed`. -/
def errC6 : String :=
  "image generation failed: nano-banana failed: NANOCAUSE; gemini fallback failed: gemini image failed: ONCECAUSE"

/-- C8 scenario: the prompting stream delivers the partial text "abc" and
then fails. -/
def envC8 : ComicEnv :=
  ⟨"job-3", "entry-3", "comic", "/data", false, .ok "entry text", .ok ollamaAbc,
   0, .error "unused", ⟨none, [], none, dummyFetch⟩, .error "unused"⟩

/-- A job whose entry body cannot be loaded (terminal-stage witness). -/
def envEntryFail : ComicEnv :=
  ⟨"job-4", "entry-4", "comic", "/data", false, .error "boom", .error "unused",
   0, .error "unused", ⟨none, [], none, dummyFetch⟩, .error "unused"⟩

/-! ## Theorems -/

/-- The base64 alphabet has 64 symbols. -/
theorem b64Alphabet_len : b64Alphabet.length = 64 := rfl

/-- Decoding inverts encoding on each 6-bit value. -/
theorem sextetRound (n : Nat) (h : n < 64) : sextetOf (sextetToChar n) = some n := by
  have h64 : ∀ m : Fin 64, sextetOf (sextetToChar m.val) = some m.val := by decide
  exact h64 ⟨n, h⟩

/-- No encoded symbol is the padding character. -/
theorem sextetToChar_ne_pad (n : Nat) : sextetToChar n ≠ '=' := by
  rcases Nat.lt_or_ge n 64 with h | h
  · have h64 : ∀ m : Fin 64, sextetToChar m.val ≠ '=' := by decide
    exact h64 ⟨n, h⟩
  · unfold sextetToChar
    rw [List.getD_eq_default _ _ (by rw [b64Alphabet_len]; exact h)]
    decide

/-- No encoded symbol is a comma. -/
theorem sextetToChar_ne_comma (n : Nat) : sextetToChar n ≠ ',' := by
  rcases Nat.lt_or_ge n 64 with h | h
  · have h64 : ∀ m : Fin 64, sextetToChar m.val ≠ ',' := by decide
    exact h64 ⟨n, h⟩
  · unfold sextetToChar
    rw [List.getD_eq_default _ _ (by rw [b64Alphabet_len]; exact h)]
    decide

/-- Encoded output contains no comma, so the data-URI stripping leaves it
unchanged. -/
theorem afterComma?_encode : ∀ bs : List Nat, afterComma? (b64EncodeBytes bs) = none
  | [] => rfl
  | [a] => by
    simp [b64EncodeBytes, afterComma?, sextetToChar_ne_comma]
  | [a, b] => by
    simp [b64EncodeBytes, afterComma?, sextetToChar_ne_comma]
  | a :: b :: c :: rest => by
    simp [b64EncodeBytes, afterComma?, sextetToChar_ne_comma, afterComma?_encode rest]

/-- Stripping up to the first comma of `p ++ "," ++ e` recovers `e` when
`p` is comma-free. -/
theorem afterComma?_skip : ∀ p : List Char, ',' ∉ p →
    ∀ e, afterComma? (p ++ ',' :: e) = some e
  | [], _, e => by simp [afterComma?]
  | c :: rest, h, e => by
    have hc : ¬ c = ',' := fun hh => h (hh ▸ List.mem_cons_self c rest)
    simp only [List.cons_append, afterComma?, if_neg hc]
    exact afterComma?_skip rest (fun hm => h (List.mem_cons_of_mem _ hm)) e

/-- Base64 decoding inverts encoding on byte sequences. -/
theorem b64_roundtrip : ∀ bs : List Nat, (∀ x ∈ bs, x < 256) →
    b64DecodeChunks (b64EncodeBytes bs) = .ok bs
  | [], _ => rfl
  | [a], h => by
    have ha : a < 256 := h a (by simp)
    have m1 : a % 4 * 16 % 16 = 0 := Nat.mul_mod_left _ _
    simp only [b64EncodeBytes, b64DecodeChunks, sextetRound _ (by omega : a / 4 < 64),
      sextetRound _ (by omega : a % 4 * 16 < 64)]
    simp [m1]
    omega
  | [a, b], h => by
    have ha : a < 256 := h a (by simp)
    have hb : b < 256 := h b (by simp)
    have m1 : b % 16 * 4 % 4 = 0 := Nat.mul_mod_left _ _
    simp only [b64EncodeBytes, b64DecodeChunks, sextetRound _ (by omega : a / 4 < 64),
      sextetRound _ (by omega : a % 4 * 16 + b / 16 < 64),
      sextetRound _ (by omega : b % 16 * 4 < 64)]
    simp [if_neg (sextetToChar_ne_pad (b % 16 * 4)), m1]
    omega
  | a :: b :: c :: rest, h => by
    have ha : a < 256 := h a (by simp)
    have hb : b < 256 := h b (by simp)
    have hc : c < 256 := h c (by simp)
    have ih := b64_roundtrip rest (fun x hx => h x (by simp [hx]))
    cases rest with
    | nil =>
      simp only [b64EncodeBytes, b64DecodeChunks, sextetRound _ (by omega : a / 4 < 64),
        sextetRound _ (by omega : a % 4 * 16 + b / 16 < 64),
        sextetRound _ (by omega : b % 16 * 4 + c / 64 < 64),
        sextetRound _ (by omega : c % 64 < 64)]
      simp [if_neg (sextetToChar_ne_pad (b % 16 * 4 + c / 64)),
        if_neg (sextetToChar_ne_pad (c % 64))]
      omega
    | cons d tail =>
      simp only [b64EncodeBytes, b64DecodeChunks, sextetRound _ (by omega : a / 4 < 64),
        sextetRound _ (by omega : a % 4 * 16 + b / 16 < 64),
        sextetRound _ (by omega : b % 16 * 4 + c / 64 < 64),
        sextetRound _ (by omega : c % 64 < 64)]
      rw [show b64EncodeBytes (d :: tail) = b64EncodeBytes (d :: tail) from rfl] at ih
      simp [if_neg (sextetToChar_ne_pad (b % 16 * 4 + c / 64)),
        if_neg (sextetToChar_ne_pad (c % 64)), ih]
      omega

/-- C10: `decode_base64_png` is a left inverse of standard base64
encoding, and it strips any comma-free data-URI prefix up to and
including the first comma. -/
theorem decode_b64_left_inverse :
    (∀ bs : List Nat, (∀ x ∈ bs, x < 256) →
      decode_base64_png (String.mk (b64EncodeBytes bs)) = .ok bs) ∧
    (∀ (p : String) (bs : List Nat), ',' ∉ p.data → (∀ x ∈ bs, x < 256) →
      decode_base64_png (p ++ "," ++ String.mk (b64EncodeBytes bs)) = .ok bs) := by
  constructor
  · intro bs hb
    unfold decode_base64_png
    rw [show (String.mk (b64EncodeBytes bs)).data = b64EncodeBytes bs from rfl,
      afterComma?_encode bs]
    exact b64_roundtrip bs hb
  · intro p bs hp hb
    unfold decode_base64_png
    have hdata : (p ++ "," ++ String.mk (b64EncodeBytes bs)).data
        = p.data ++ ',' :: b64EncodeBytes bs := by
      show (p.data ++ [',']) ++ b64EncodeBytes bs = _
      rw [List.append_assoc]
      rfl
    rw [hdata, afterComma?_skip p.data hp]
    exact b64_roundtrip bs hb

/-- Witness for C10 at the bytes of "foo" and the prefix of a PNG data
URI. -/
theorem decode_b64_left_inverse_witness :
    decode_base64_png (String.mk (b64EncodeBytes [102, 111, 111])) = .ok [102, 111, 111] ∧
    decode_base64_png ("data:image/png;base64" ++ "," ++
      String.mk (b64EncodeBytes [102, 111, 111])) = .ok [102, 111, 111] :=
  ⟨decode_b64_left_inverse.1 [102, 111, 111] (by decide),
   decode_b64_left_inverse.2 "data:image/png;base64" [102, 111, 111] (by decide) (by decide)⟩

/-- C7: `guess_image_extension` returns "png" for every byte slice with
the PNG magic prefix, "jpg" for every slice starting FF D8 FF, "webp"
for every slice of length ≥ 12 starting "RIFF" with "WEBP" at offsets
8..12, and "png" for every other slice. -/
theorem guess_extension_spec :
    (∀ rest : List Nat,
      guess_image_extension ([0x89, 0x50, 0x4E, 0x47, 0x0D, 0x0A, 0x1A, 0x0A] ++ rest)
        = "png") ∧
    (∀ rest : List Nat,
      guess_image_extension ([0xFF, 0xD8, 0xFF] ++ rest) = "jpg") ∧
    (∀ m1 m2 m3 m4 : Nat, ∀ rest : List Nat,
      guess_image_extension
        ([0x52, 0x49, 0x46, 0x46, m1, m2, m3, m4, 0x57, 0x45, 0x42, 0x50] ++ rest)
        = "webp") ∧
    (∀ bs : List Nat,
      bs.take 8 ≠ [0x89, 0x50, 0x4E, 0x47, 0x0D, 0x0A, 0x1A, 0x0A] →
      bs.take 3 ≠ [0xFF, 0xD8, 0xFF] →
      ¬ (12 ≤ bs.length ∧ bs.take 4 = [0x52, 0x49, 0x46, 0x46]
          ∧ (bs.drop 8).take 4 = [0x57, 0x45, 0x42, 0x50]) →
      guess_image_extension bs = "png") := by
  refine ⟨fun rest => ?_, fun rest => ?_, fun m1 m2 m3 m4 rest => ?_, fun bs h1 h2 h3 => ?_⟩
  · unfold guess_image_extension
    rw [if_pos ⟨by simp, by simp⟩]
  · unfold guess_image_extension
    rw [if_neg (by simp), if_pos ⟨by simp, by simp⟩]
  · unfold guess_image_extension
    rw [if_neg (by simp), if_neg (by simp), if_pos ⟨by simp, by simp, by simp⟩]
  · unfold guess_image_extension
    rw [if_neg (fun hh => h1 hh.2), if_neg (fun hh => h2 hh.2), if_neg h3]

/-- Witness for C7 at concrete byte slices of each kind. -/
theorem guess_extension_spec_witness :
    guess_image_extension [0x89, 0x50, 0x4E, 0x47, 0x0D, 0x0A, 0x1A, 0x0A] = "png" ∧
    guess_image_extension [0xFF, 0xD8, 0xFF] = "jpg" ∧
    guess_image_extension
      [0x52, 0x49, 0x46, 0x46, 0, 0, 0, 0, 0x57, 0x45, 0x42, 0x50] = "webp" ∧
    guess_image_extension [0] = "png" :=
  ⟨by simpa using guess_extension_spec.1 [],
   by simpa using guess_extension_spec.2.1 [],
   by simpa using guess_extension_spec.2.2.1 0 0 0 0 [],
   guess_extension_spec.2.2.2 [0] (by decide) (by decide) (by decide)⟩

/-- C5: `find_image_data`, on a fragment with no inline-data field under
any known spelling but with the string "data:image/png;base64,Zm9v"
nested three levels deep, returns that data URI. -/
theorem extractor_nested_data_uri :
    find_image_data fragC5 = some "data:image/png;base64,Zm9v" := rfl

/-- C4: on a streamed NDJSON body whose line 1 has no image, line 2 has
inline data "AAA" and line 3 has inline data "BBB", the streaming image
producer returns "BBB" — the most recently seen candidate wins. -/
theorem stream_latest_image_wins :
    (gemStreamRun ⟨none, [some lineNoImg, some lineAAA, some lineBBB], none, dummyFetch⟩).2
      = .ok "BBB" := rfl

/-- C9 counterexample: HTTP 500 is a non-success status, yet
`generate_streaming` returns the generic HTTP error for it, not the
unreachable-server message the claim requires for every non-success
status. -/
theorem ollama_streaming_generic_on_500 :
    (generate_streaming (.ok ⟨500, [], none⟩)).2
      = .error "ollama error: HTTP 500 Internal Server Error" ∧
    "ollama error: HTTP 500 Internal Server Error"
      ≠ "Ollama server not reachable. Is it running on port 11434?" :=
  ⟨rfl, by decide⟩

/-- C9 amended: statuses 404 and 502 are surfaced as the distinct
user-actionable unreachable-server message; every other non-success
status is surfaced as the generic "ollama error: HTTP ..." message. -/
theorem ollama_streaming_status_errors (r : OllamaResp) :
    (r.status = 404 ∨ r.status = 502 →
      generate_streaming (.ok r)
        = ([], .error "Ollama server not reachable. Is it running on port 11434?")) ∧
    (¬ isSuccessStatus r.status → r.status ≠ 404 → r.status ≠ 502 →
      generate_streaming (.ok r)
        = ([], .error ("ollama error: HTTP " ++ statusDisplay r.status))) := by
  constructor
  · intro h
    simp [generate_streaming, h]
  · intro h h4 h5
    simp only [generate_streaming]
    rw [if_neg (by rintro (hh | hh) <;> [exact h4 hh; exact h5 hh]), if_pos h]

/-- Witness for C9 amended at statuses 404 and 500. -/
theorem ollama_streaming_status_errors_witness :
    generate_streaming (.ok (⟨404, [], none⟩ : OllamaResp))
      = ([], .error "Ollama server not reachable. Is it running on port 11434?") ∧
    generate_streaming (.ok (⟨500, [], none⟩ : OllamaResp))
      = ([], .error ("ollama error: HTTP " ++ statusDisplay 500)) :=
  ⟨(ollama_streaming_status_errors ⟨404, [], none⟩).1 (Or.inl rfl),
   (ollama_streaming_status_errors ⟨500, [], none⟩).2 (by decide) (by decide) (by decide)⟩

/-- A list is a chain under any relation holding between all its member
pairs. -/
theorem chain'_of_all {α : Type} {R : α → α → Prop} :
    ∀ l : List α, (∀ a ∈ l, ∀ b ∈ l, R a b) → l.Chain' R
  | [], _ => List.chain'_nil
  | [a], _ => List.chain'_singleton a
  | a :: b :: l, h => by
    rw [List.chain'_cons]
    refine ⟨h a (by simp) b (by simp), chain'_of_all (b :: l) ?_⟩
    intro x hx y hy
    exact h x (List.mem_cons_of_mem a hx) y (List.mem_cons_of_mem a hy)

/-- `stepOK` between two writes of which one is not a Rendering write. -/
theorem stepOK_nonrender {s₁ s₂ : ComicJobStatus}
    (h : stageRank s₁.stage ≤ stageRank s₂.stage)
    (hnr : (∀ c t, s₁.stage ≠ .rendering c t) ∨ (∀ c t, s₂.stage ≠ .rendering c t)) :
    stepOK s₁ s₂ := by
  refine ⟨h, fun c₁ t₁ c₂ t₂ h₁ h₂ => ?_⟩
  rcases hnr with hn | hn
  · exact absurd h₁ (hn c₁ t₁)
  · exact absurd h₂ (hn c₂ t₂)

/-- A status whose stage fails the Rendering test is not a Rendering
write. -/
theorem nonrender_of_false {s : ComicJobStatus} (h : isRenderStage s.stage = false) :
    ∀ c t, s.stage ≠ .rendering c t := by
  intro c t hh
  rw [hh] at h
  nomatch h

/-- `stepOK` between two Rendering writes with non-decreasing counters. -/
theorem stepOK_render (env : ComicEnv) (p₁ p₂ : Option String) (b₁ b₂ : Option String)
    {c₁ t₁ c₂ t₂ : Nat} (h : c₁ ≤ c₂) :
    stepOK (mkStatus env (.rendering c₁ t₁) p₁ b₁) (mkStatus env (.rendering c₂ t₂) p₂ b₂) := by
  refine ⟨le_refl _, fun a b a' b' ha hb => ?_⟩
  cases ha
  cases hb
  exact h

/-- Every status republished while prompting carries the Prompting stage
and some accumulated storyboard text. -/
theorem promptingAccum_mem (env : ComicEnv) :
    ∀ (cs : List String) (acc : String) (s : ComicJobStatus),
      s ∈ promptingAccum env acc cs → ∃ t, s = mkStatus env .prompting none (some t)
  | [], _, _, h => by simp [promptingAccum] at h
  | c :: rest, acc, s, h => by
    rw [promptingAccum] at h
    rcases List.mem_cons.mp h with h | h
    · exact ⟨acc ++ c, h⟩
    · exact promptingAccum_mem env rest (acc ++ c) s h

/-- Successive prompting republications extend the accumulated text. -/
theorem promptingAccum_chain (env : ComicEnv) :
    ∀ (cs : List String) (acc : String),
      List.Chain' (fun a b => sbStep a.storyboard_text b.storyboard_text)
        (promptingAccum env acc cs)
  | [], _ => List.chain'_nil
  | [c], _ => List.chain'_singleton _
  | c :: c' :: rest, acc => by
    rw [promptingAccum, promptingAccum, List.chain'_cons]
    exact ⟨⟨c', rfl⟩,
      by rw [← promptingAccum] ; exact promptingAccum_chain env (c' :: rest) (acc ++ c)⟩

/-- Each published tick of the progress filter exceeds the preceding
published tick, and comes from the event list. -/
theorem filterTicks_lt : ∀ (evs : List (Nat × Nat)) (last : Nat) (p : Nat × Nat),
    p ∈ filterTicks last evs → last < p.1 ∧ p ∈ evs
  | [], _, _, h => by simp [filterTicks] at h
  | (c, t) :: rest, last, p, h => by
    rw [filterTicks] at h
    by_cases hc : last < c ∧ c % 5 = 0
    · rw [if_pos hc] at h
      rcases List.mem_cons.mp h with h | h
      · subst h
        exact ⟨hc.1, by simp⟩
      · have ih := filterTicks_lt rest c p h
        exact ⟨Nat.lt_trans hc.1 ih.1, List.mem_cons_of_mem _ ih.2⟩
    · rw [if_neg hc] at h
      have ih := filterTicks_lt rest last p h
      exact ⟨ih.1, List.mem_cons_of_mem _ ih.2⟩

/-- The published ticks of the progress filter are increasing. -/
theorem filterTicks_chain : ∀ (evs : List (Nat × Nat)) (last : Nat),
    List.Chain' (fun a b : Nat × Nat => a.1 ≤ b.1) (filterTicks last evs)
  | [], _ => List.chain'_nil
  | (c, t) :: rest, last => by
    rw [filterTicks]
    by_cases hc : last < c ∧ c % 5 = 0
    · rw [if_pos hc, List.chain'_cons']
      refine ⟨fun y hy => ?_, filterTicks_chain rest c⟩
      exact Nat.le_of_lt (filterTicks_lt rest c y (List.mem_of_mem_head? hy)).1
    · rw [if_neg hc]
      exact filterTicks_chain rest last

/-- Per-line nudges stay below 100 and always carry total 100. -/
theorem rampProgress_bound : ∀ (ls : List (Option Json)) (p : Nat) (q : Nat × Nat),
    q ∈ rampProgress p ls → q.1 ≤ 99 ∧ q.2 = 100
  | [], _, _, h => by simp [rampProgress] at h
  | _ :: rest, p, q, h => by
    rw [rampProgress] at h
    by_cases hp : p < 98
    · rw [if_pos hp] at h
      rcases List.mem_cons.mp h with h | h
      · subst h
        exact ⟨by omega, rfl⟩
      · exact rampProgress_bound rest (p + 2) q h
    · rw [if_neg hp] at h
      exact rampProgress_bound rest p q h

/-- Every progress event of the streaming image call is at most 100 out
of a total of 100. -/
theorem gemEvents_bound (g : GemStreamSpec) :
    ∀ q ∈ (gemStreamRun g).1, q.1 ≤ 100 ∧ q.2 = 100 := by
  have hbase : ∀ q ∈ ((1, 100) :: rampProgress 1 g.lines : List (Nat × Nat)),
      q.1 ≤ 100 ∧ q.2 = 100 := by
    intro q hq
    rcases List.mem_cons.mp hq with h | h
    · subst h
      exact ⟨by omega, rfl⟩
    · have hb := rampProgress_bound g.lines 1 q h
      exact ⟨by omega, hb.2⟩
  intro q hq
  unfold gemStreamRun at hq
  split at hq
  · simp at hq
  · split at hq
    · exact hbase q hq
    · split at hq
      · rcases List.mem_append.mp hq with h | h
        · exact hbase q h
        · rcases List.mem_cons.mp h with h | h
          · subst h; exact ⟨by omega, rfl⟩
          · simp at h; subst h; exact ⟨by omega, rfl⟩
      · split at hq
        · rcases List.mem_append.mp hq with h | h
          · exact hbase q h
          · rcases List.mem_cons.mp h with h | h
            · subst h; exact ⟨by omega, rfl⟩
            · simp at h; subst h; exact ⟨by omega, rfl⟩
        · rcases List.mem_append.mp hq with h | h
          · exact hbase q h
          · simp at h; subst h; exact ⟨by omega, rfl⟩
      · rcases List.mem_append.mp hq with h | h
        · exact hbase q h
        · simp at h; subst h; exact ⟨by omega, rfl⟩

/-- Events of the fallback chain are those of its streaming attempt, so
the same bound applies. -/
theorem gwpEvents_bound (g : GemStreamSpec) (once : Except String String) :
    ∀ q ∈ (generate_image_with_progress g once).1, q.1 ≤ 100 ∧ q.2 = 100 := by
  intro q hq
  unfold generate_image_with_progress at hq
  split at hq
  next evs b heq =>
    have : q ∈ (gemStreamRun g).1 := by rw [heq]; exact hq
    exact gemEvents_bound g q this
  next evs e heq =>
    have : q ∈ (gemStreamRun g).1 := by rw [heq]; exact hq
    exact gemEvents_bound g q this

/-- The heartbeat ticks of the nano-banana wait loop are increasing,
bounded by 98, above the initial tick, and below the final tick. -/
theorem nanoTickRun_spec : ∀ k t : Nat,
    List.Chain' (· ≤ ·) (nanoTickRun k t).1 ∧
    (∀ x ∈ (nanoTickRun k t).1, t < x ∧ x ≤ 98 ∧ x ≤ (nanoTickRun k t).2) ∧
    t ≤ (nanoTickRun k t).2
  | 0, t => ⟨List.chain'_nil, by simp [nanoTickRun], Nat.le_refl t⟩
  | k + 1, t => by
    by_cases ht : t < 98
    · have ih := nanoTickRun_spec k (min (t + 2) 98)
      rw [nanoTickRun, if_pos ht]
      refine ⟨?_, ?_, ?_⟩
      · rw [List.chain'_cons']
        refine ⟨fun y hy => ?_, ih.1⟩
        exact Nat.le_of_lt (ih.2.1 y (List.mem_of_mem_head? hy)).1
      · intro x hx
        rcases List.mem_cons.mp hx with h | h
        · subst h
          exact ⟨by omega, by omega, ih.2.2⟩
        · have hm := ih.2.1 x h
          exact ⟨by omega, hm.2.1, hm.2.2⟩
      · exact Nat.le_trans (by omega) ih.2.2
    · rw [nanoTickRun, if_neg ht]
      exact nanoTickRun_spec k t

/-- The Rendering statuses published during the rendering phase form a
`stepOK` chain, and each is a Rendering write with `1 ≤ completed ≤
total`. -/
theorem renderPhase_writes (env : ComicEnv) (sb : String) :
    List.Chain' stepOK (renderPhase env sb).1 ∧
    ∀ s ∈ (renderPhase env sb).1,
      ∃ c t, s = mkStatus env (.rendering c t) none (some sb) ∧ 1 ≤ c ∧ c ≤ t := by
  unfold renderPhase
  by_cases hn : env.nanoConfigured
  · rw [if_pos hn]
    have htick := nanoTickRun_spec env.nanoTicks 0
    cases hres : env.nanoResult with
    | ok s =>
      simp only
      constructor
      · rw [List.chain'_map]
        refine List.Chain'.imp ?_ htick.1
        intro a b hab
        exact stepOK_render env none none _ _ hab
      · intro s hs
        rcases List.mem_map.mp hs with ⟨x, hx, rfl⟩
        have hm := htick.2.1 x hx
        exact ⟨x, 100, rfl, by omega, by omega⟩
    | error e =>
      simp only
      constructor
      · rw [List.chain'_append]
        refine ⟨?_, ?_, ?_⟩
        · rw [List.chain'_map]
          refine List.Chain'.imp ?_ htick.1
          intro a b hab
          exact stepOK_render env none none _ _ hab
        · rw [List.chain'_map]
          refine List.Chain'.imp ?_
            (filterTicks_chain (generate_image_with_progress env.gem env.geminiOnce).1
              (nanoTickRun env.nanoTicks 0).2)
          intro a b hab
          exact stepOK_render env none none _ _ hab
        · intro x hx y hy
          rcases List.mem_map.mp (List.mem_of_mem_getLast? hx) with ⟨a, ha, rfl⟩
          rcases List.mem_map.mp (List.mem_of_mem_head? hy) with ⟨b, hb, rfl⟩
          have hma := htick.2.1 a ha
          have hmb := filterTicks_lt _ _ b hb
          exact stepOK_render env none none _ _ (by omega)
      · intro s hs
        rcases List.mem_append.mp hs with h | h
        · rcases List.mem_map.mp h with ⟨x, hx, rfl⟩
          have hm := htick.2.1 x hx
          exact ⟨x, 100, rfl, by omega, by omega⟩
        · rcases List.mem_map.mp h with ⟨p, hp, rfl⟩
          have hlt := filterTicks_lt _ _ p hp
          have hbd := gwpEvents_bound env.gem env.geminiOnce p hlt.2
          exact ⟨p.1, p.2, rfl, by omega, by omega⟩
  · rw [if_neg hn]
    simp only
    constructor
    · rw [List.chain'_map]
      refine List.Chain'.imp ?_
        (filterTicks_chain (generate_image_with_progress env.gem env.geminiOnce).1 0)
      intro a b hab
      exact stepOK_render env none none _ _ hab
    · intro s hs
      rcases List.mem_map.mp hs with ⟨p, hp, rfl⟩
      have hlt := filterTicks_lt _ _ p hp
      have hbd := gwpEvents_bound env.gem env.geminiOnce p hlt.2
      exact ⟨p.1, p.2, rfl, by omega, by omega⟩

/-- The post-rendering writes are chained, never Rendering, rank at least
Saving, and each carries the frozen storyboard text. -/
theorem savedTail_facts (env : ComicEnv) :
    List.Chain' stepOK (savedTail env) ∧
    ∀ y ∈ savedTail env,
      5 ≤ stageRank y.stage ∧ (∀ c t, y.stage ≠ .rendering c t) ∧
      y.storyboard_text = some (finalStoryboard env) := by
  unfold savedTail
  split
  · split
    · constructor
      · exact List.chain'_cons.mpr ⟨stepOK_nonrender (show (5:Nat) ≤ 6 by decide)
          (Or.inl (nonrender_of_false rfl)), List.chain'_singleton _⟩
      · intro y hy
        rcases List.mem_cons.mp hy with h | h
        · subst h
          exact ⟨show (5:Nat) ≤ 5 by decide, nonrender_of_false rfl, rfl⟩
        · rw [List.mem_singleton.mp h]
          exact ⟨show (5:Nat) ≤ 6 by decide, nonrender_of_false rfl, rfl⟩
    · refine ⟨List.chain'_singleton _, fun y hy => ?_⟩
      rw [List.mem_singleton.mp hy]
      exact ⟨show (5:Nat) ≤ 7 by decide, nonrender_of_false rfl, rfl⟩
  · refine ⟨List.chain'_singleton _, fun y hy => ?_⟩
    rw [List.mem_singleton.mp hy]
    exact ⟨show (5:Nat) ≤ 7 by decide, nonrender_of_false rfl, rfl⟩

/-- The block from the first Rendering write to the end of the trace is a
`stepOK` chain whose members all rank at least Rendering. -/
theorem renderBlock_facts (env : ComicEnv) :
    List.Chain' stepOK
      (mkStatus env (.rendering 1 1) none (some (finalStoryboard env)) ::
        ((renderPhase env (finalStoryboard env)).1 ++ savedTail env)) ∧
    ∀ y ∈ mkStatus env (.rendering 1 1) none (some (finalStoryboard env)) ::
        ((renderPhase env (finalStoryboard env)).1 ++ savedTail env),
      4 ≤ stageRank y.stage := by
  have hrp := renderPhase_writes env (finalStoryboard env)
  have hst := savedTail_facts env
  constructor
  · rw [List.chain'_cons']
    constructor
    · intro y hy
      rcases List.mem_append.mp (List.mem_of_mem_head? hy) with h | h
      · rcases hrp.2 y h with ⟨c, t, rfl, hc, hct⟩
        exact stepOK_render env none none _ _ hc
      · have hy' := hst.2 y h
        exact stepOK_nonrender (Nat.le_trans (show (4:Nat) ≤ 5 by decide) hy'.1)
          (Or.inr hy'.2.1)
    · rw [List.chain'_append]
      refine ⟨hrp.1, hst.1, ?_⟩
      intro x hx y hy
      rcases hrp.2 x (List.mem_of_mem_getLast? hx) with ⟨c, t, rfl, hc, hct⟩
      have hy' := hst.2 y (List.mem_of_mem_head? hy)
      exact stepOK_nonrender (Nat.le_trans (show (4:Nat) ≤ 5 by decide) hy'.1)
        (Or.inr hy'.2.1)
  · intro y hy
    rcases List.mem_cons.mp hy with rfl | hy
    · exact Nat.le_refl 4
    rcases List.mem_append.mp hy with h | h
    · rcases hrp.2 y h with ⟨c, t, rfl, hc, hct⟩
      exact Nat.le_refl 4
    · exact Nat.le_trans (show (4:Nat) ≤ 5 by decide) (hst.2 y h).1

/-- The block from the first Prompting write onward is a `stepOK` chain,
for any chained continuation ranking at least Prompting. -/
theorem promptingBlock_chain (env : ComicEnv) (rest : List ComicJobStatus)
    (hrest : List.Chain' stepOK rest)
    (hrank : ∀ y ∈ rest, 3 ≤ stageRank y.stage) :
    List.Chain' stepOK
      (mkStatus env .prompting none none ::
        (promptingAccum env "" (chunksOf env) ++ rest)) := by
  have haccum : ∀ y ∈ promptingAccum env "" (chunksOf env),
      ∃ t, y = mkStatus env .prompting none (some t) :=
    fun y hy => promptingAccum_mem env (chunksOf env) "" y hy
  rw [List.chain'_cons']
  constructor
  · intro y hy
    rcases List.mem_append.mp (List.mem_of_mem_head? hy) with h | h
    · rcases haccum y h with ⟨t, rfl⟩
      exact stepOK_nonrender (Nat.le_refl 3) (Or.inl (nonrender_of_false rfl))
    · exact stepOK_nonrender (hrank y h) (Or.inl (nonrender_of_false rfl))
  · rw [List.chain'_append]
    refine ⟨?_, hrest, ?_⟩
    · apply chain'_of_all
      intro a ha b hb
      rcases haccum a ha with ⟨ta, rfl⟩
      rcases haccum b hb with ⟨tb, rfl⟩
      exact stepOK_nonrender (Nat.le_refl 3) (Or.inl (nonrender_of_false rfl))
    · intro x hx y hy
      rcases haccum x (List.mem_of_mem_getLast? hx) with ⟨t, rfl⟩
      exact stepOK_nonrender (hrank y (List.mem_of_mem_head? hy))
        (Or.inl (nonrender_of_false rfl))

/-- Every job trace is a `stepOK` chain. -/
theorem trace_chain (env : ComicEnv) : List.Chain' stepOK (fullTrace env) := by
  have hrb := renderBlock_facts env
  unfold fullTrace comicTaskTrace
  cases hee : env.entryBody with
  | error e =>
    refine List.chain'_cons.mpr ⟨?_, List.chain'_cons.mpr ⟨?_,
      List.chain'_cons.mpr ⟨?_, List.chain'_singleton _⟩⟩⟩
    · exact stepOK_nonrender (show (0:Nat) ≤ 1 by decide) (Or.inl (nonrender_of_false rfl))
    · exact stepOK_nonrender (show (1:Nat) ≤ 2 by decide) (Or.inl (nonrender_of_false rfl))
    · exact stepOK_nonrender (show (2:Nat) ≤ 7 by decide) (Or.inl (nonrender_of_false rfl))
  | ok t0 =>
    refine List.chain'_cons.mpr
      ⟨stepOK_nonrender (show (0:Nat) ≤ 1 by decide) (Or.inl (nonrender_of_false rfl)),
       List.chain'_cons.mpr
        ⟨stepOK_nonrender (show (1:Nat) ≤ 2 by decide) (Or.inl (nonrender_of_false rfl)),
         List.chain'_cons.mpr
          ⟨stepOK_nonrender (show (2:Nat) ≤ 3 by decide) (Or.inl (nonrender_of_false rfl)),
           ?_⟩⟩⟩
    cases hoo : ollamaResultOf env with
    | error e =>
      refine promptingBlock_chain env _ (List.chain'_singleton _) fun y hy => ?_
      rw [List.mem_singleton.mp hy]
      exact show (3:Nat) ≤ 7 by decide
    | ok u =>
      exact promptingBlock_chain env _ hrb.1
        fun y hy => Nat.le_trans (show (3:Nat) ≤ 4 by decide) (hrb.2 y hy)

/-- Every Rendering write of a job trace has `completed ≤ total`. -/
theorem trace_render_bound (env : ComicEnv) :
    ∀ s ∈ fullTrace env, ∀ c t, s.stage = .rendering c t → c ≤ t := by
  intro s hs c t hstage
  have hrp := renderPhase_writes env (finalStoryboard env)
  have htl := savedTail_facts env
  rcases List.mem_cons.mp hs with rfl | hs
  · nomatch hstage
  unfold comicTaskTrace at hs
  rcases List.mem_cons.mp hs with rfl | hs
  · nomatch hstage
  rcases List.mem_cons.mp hs with rfl | hs
  · nomatch hstage
  cases hee : env.entryBody with
  | error e =>
    rw [hee] at hs
    rw [List.mem_singleton.mp hs] at hstage
    nomatch hstage
  | ok t0 =>
    rw [hee] at hs
    rcases List.mem_cons.mp hs with rfl | hs
    · nomatch hstage
    rcases List.mem_append.mp hs with h | h
    · rcases promptingAccum_mem env _ _ s h with ⟨tt, rfl⟩
      nomatch hstage
    · cases hoo : ollamaResultOf env with
      | error e =>
        rw [hoo] at h
        rw [List.mem_singleton.mp h] at hstage
        nomatch hstage
      | ok u =>
        rw [hoo] at h
        rcases List.mem_cons.mp h with rfl | h
        · cases hstage
          exact Nat.le_refl 1
        rcases List.mem_append.mp h with h | h
        · rcases hrp.2 s h with ⟨c', t', rfl, hc', hct⟩
          cases hstage
          exact hct
        · exact absurd hstage ((htl.2 s h).2.1 c t)

/-- C1: for every comic job, the stage sequence written into the status
registry is non-decreasing in the ordering Queued < Parsing <
Storyboarding < Prompting < Rendering < Saving < Done, successive
Rendering writes have non-decreasing `completed`, and every Rendering
write satisfies `completed ≤ total`. -/
theorem comic_status_monotone (env : ComicEnv) :
    List.Chain' stepOK (fullTrace env) ∧
    ∀ s ∈ fullTrace env, ∀ c t, s.stage = .rendering c t → c ≤ t :=
  ⟨trace_chain env, trace_render_bound env⟩

/-- All writes up to and including the Prompting block, extended by a
non-terminal continuation, are non-terminal. -/
theorem preBlock_nonterminal (env : ComicEnv) (X : List ComicJobStatus)
    (hX : ∀ s ∈ X, isTerminal s.stage = false) :
    ∀ s ∈ mkStatus env .queued none none :: mkStatus env .parsing none none ::
      mkStatus env .storyboarding none none :: mkStatus env .prompting none none ::
      (promptingAccum env "" (chunksOf env) ++ X), isTerminal s.stage = false := by
  intro s hs
  rcases List.mem_cons.mp hs with rfl | hs
  · rfl
  rcases List.mem_cons.mp hs with rfl | hs
  · rfl
  rcases List.mem_cons.mp hs with rfl | hs
  · rfl
  rcases List.mem_cons.mp hs with rfl | hs
  · rfl
  rcases List.mem_append.mp hs with h | h
  · rcases promptingAccum_mem env _ _ s h with ⟨t, rfl⟩
    rfl
  · exact hX s h

/-- Every job trace consists of non-terminal writes followed by exactly
one final write. -/
theorem trace_decomp (env : ComicEnv) :
    ∃ pre last, fullTrace env = pre ++ [last] ∧
      ∀ s ∈ pre, isTerminal s.stage = false := by
  have hrp := renderPhase_writes env (finalStoryboard env)
  unfold fullTrace comicTaskTrace
  cases hee : env.entryBody with
  | error e =>
    refine ⟨[mkStatus env .queued none none, mkStatus env .parsing none none,
      mkStatus env .storyboarding none none], _, rfl, ?_⟩
    intro s hs
    rcases List.mem_cons.mp hs with rfl | hs
    · rfl
    rcases List.mem_cons.mp hs with rfl | hs
    · rfl
    rw [List.mem_singleton.mp hs]
    rfl
  | ok t0 =>
    cases hoo : ollamaResultOf env with
    | error e =>
      refine ⟨mkStatus env .queued none none :: mkStatus env .parsing none none ::
        mkStatus env .storyboarding none none :: mkStatus env .prompting none none ::
        (promptingAccum env "" (chunksOf env) ++ []),
        mkStatus env (.failed ("ollama prompting failed: " ++ e)) none none, by simp, ?_⟩
      exact preBlock_nonterminal env [] (fun s hs => nomatch hs)
    | ok u =>
      unfold savedTail
      cases hr2 : (renderPhase env (finalStoryboard env)).2 with
      | ok b64 =>
        cases hdec : decode_base64_png b64 with
        | ok bytes =>
          refine ⟨mkStatus env .queued none none :: mkStatus env .parsing none none ::
            mkStatus env .storyboarding none none :: mkStatus env .prompting none none ::
            (promptingAccum env "" (chunksOf env) ++
              (mkStatus env (.rendering 1 1) none (some (finalStoryboard env)) ::
                ((renderPhase env (finalStoryboard env)).1 ++
                  [mkStatus env .saving (some (imgPath env (guess_image_extension bytes)))
                    (some (finalStoryboard env))]))),
            mkStatus env .done (some (imgPath env (guess_image_extension bytes)))
              (some (finalStoryboard env)), by simp [hr2, hdec], ?_⟩
          apply preBlock_nonterminal
          intro s hs
          rcases List.mem_cons.mp hs with rfl | hs
          · rfl
          rcases List.mem_append.mp hs with h | h
          · rcases hrp.2 s h with ⟨c, t, rfl, _, _⟩
            rfl
          · rw [List.mem_singleton.mp h]
            rfl
        | error e2 =>
          refine ⟨mkStatus env .queued none none :: mkStatus env .parsing none none ::
            mkStatus env .storyboarding none none :: mkStatus env .prompting none none ::
            (promptingAccum env "" (chunksOf env) ++
              (mkStatus env (.rendering 1 1) none (some (finalStoryboard env)) ::
                ((renderPhase env (finalStoryboard env)).1 ++ []))),
            mkStatus env (.failed ("image decode failed: " ++ e2)) none
              (some (finalStoryboard env)), by simp [hr2, hdec], ?_⟩
          apply preBlock_nonterminal
          intro s hs
          rcases List.mem_cons.mp hs with rfl | hs
          · rfl
          rcases List.mem_append.mp hs with h | h
          · rcases hrp.2 s h with ⟨c, t, rfl, _, _⟩
            rfl
          · exact absurd h (List.not_mem_nil s)
      | error e2 =>
        refine ⟨mkStatus env .queued none none :: mkStatus env .parsing none none ::
          mkStatus env .storyboarding none none :: mkStatus env .prompting none none ::
          (promptingAccum env "" (chunksOf env) ++
            (mkStatus env (.rendering 1 1) none (some (finalStoryboard env)) ::
              ((renderPhase env (finalStoryboard env)).1 ++ []))),
          mkStatus env (.failed ("image generation failed: " ++ e2)) none
            (some (finalStoryboard env)), by simp [hr2], ?_⟩
        apply preBlock_nonterminal
        intro s hs
        rcases List.mem_cons.mp hs with rfl | hs
        · rfl
        rcases List.mem_append.mp hs with h | h
        · rcases hrp.2 s h with ⟨c, t, rfl, _, _⟩
          rfl
        · exact absurd h (List.not_mem_nil s)

/-- Witness for C1 at the concrete C3 scenario's job. -/
theorem comic_status_monotone_witness :
    List.Chain' stepOK (fullTrace envC3) ∧
    ∀ s ∈ fullTrace envC3, ∀ c t, s.stage = .rendering c t → c ≤ t :=
  comic_status_monotone envC3

/-- C2: once a Failed or Done status has been written for a job, the
orchestrator performs no further status write: a terminal write can only
be the last element of the trace (so later polls return it unchanged). -/
theorem comic_terminal_write_once (env : ComicEnv) (i : Nat)
    (hi : i < (fullTrace env).length)
    (ht : isTerminal ((fullTrace env).get ⟨i, hi⟩).stage = true) :
    i + 1 = (fullTrace env).length := by
  obtain ⟨pre, last, heq, hpre⟩ := trace_decomp env
  by_contra hne
  have hdl : (fullTrace env).dropLast = pre := by
    rw [heq]
    exact List.dropLast_concat
  have hlen : (fullTrace env).dropLast.length = (fullTrace env).length - 1 := by
    simp [List.length_dropLast]
  have hilt : i < (fullTrace env).dropLast.length := by omega
  have hgm : (fullTrace env).dropLast.get ⟨i, hilt⟩ = (fullTrace env).get ⟨i, hi⟩ := by
    simp [List.getElem_dropLast]
  have hmem : (fullTrace env).get ⟨i, hi⟩ ∈ pre := by
    rw [← hdl, ← hgm]
    exact List.get_mem _ i hilt
  have := hpre _ hmem
  rw [ht] at this
  nomatch this

/-- Witness for C2: the fourth write of the entry-load-failure job is
terminal and is the last write. -/
theorem comic_terminal_write_once_witness :
    3 + 1 = (fullTrace envEntryFail).length :=
  comic_terminal_write_once envEntryFail 3 (by decide) (by decide)

/-- A status whose stage fails the Failed test is not a Failed write. -/
theorem nonfailed_of_false {s : ComicJobStatus} (h : isFailedStage s.stage = false) :
    ∀ msg, s.stage ≠ .failed msg := by
  intro msg hh
  rw [hh] at h
  nomatch h

/-- A stage passing the Prompting test is the Prompting stage. -/
theorem eq_prompting_of_isPrompting {st : ComicStage} (h : isPromptingStage st = true) :
    st = .prompting := by
  cases st <;> first | rfl | nomatch h

/-- When the streaming attempt fails, the fallback chain's result is the
non-streaming attempt's outcome (with its error re-labelled); the
streaming cause is discarded. -/
theorem gwp_result_of_stream_error (g : GemStreamSpec) (once : Except String String)
    (e : String) (hs : (gemStreamRun g).2 = .error e) :
    (generate_image_with_progress g once).2 =
      (match once with
       | .ok s => .ok s
       | .error e2 => .error ("gemini image failed: " ++ e2)) := by
  unfold generate_image_with_progress
  rcases hp : gemStreamRun g with ⟨evs, r⟩
  rw [hp] at hs
  simp only at hs
  subst hs
  rfl

/-- With the remote renderer unconfigured, the rendering phase's result
is the Gemini fallback chain's result. -/
theorem renderPhase_result_no_nano (env : ComicEnv) (sb : String)
    (hn : env.nanoConfigured = false) :
    (renderPhase env sb).2 = (generate_image_with_progress env.gem env.geminiOnce).2 := by
  unfold renderPhase
  rw [hn]
  rfl

/-- With the remote renderer configured but failing, the rendering
phase's result wraps the renderer's cause and the fallback chain's
error message. -/
theorem renderPhase_result_nano_fallback (env : ComicEnv) (sb : String)
    (nanoErr gerr : String)
    (hn : env.nanoConfigured = true)
    (hnr : env.nanoResult = .error nanoErr)
    (hg : (generate_image_with_progress env.gem env.geminiOnce).2 = .error gerr) :
    (renderPhase env sb).2 =
      .error ("nano-banana failed: " ++ nanoErr ++ "; gemini fallback failed: " ++ gerr) := by
  unfold renderPhase
  rw [hn]
  simp only [if_pos]
  rw [hnr]
  simp only
  rw [hg]

/-- The shape of a job trace once entry loading and prompting succeed. -/
theorem trace_eq_of_ok (env : ComicEnv) (t0 : String)
    (he : env.entryBody = .ok t0) (ho : ollamaResultOf env = .ok ()) :
    fullTrace env = mkStatus env .queued none none :: mkStatus env .parsing none none ::
      mkStatus env .storyboarding none none :: mkStatus env .prompting none none ::
      (promptingAccum env "" (chunksOf env) ++
        (mkStatus env (.rendering 1 1) none (some (finalStoryboard env)) ::
          ((renderPhase env (finalStoryboard env)).1 ++ savedTail env))) := by
  unfold fullTrace comicTaskTrace
  rw [he, ho]
  rfl

/-- The shape of a job trace when the prompting stream fails. -/
theorem trace_eq_of_prompt_fail (env : ComicEnv) (t0 e : String)
    (he : env.entryBody = .ok t0) (ho : ollamaResultOf env = .error e) :
    fullTrace env = mkStatus env .queued none none :: mkStatus env .parsing none none ::
      mkStatus env .storyboarding none none :: mkStatus env .prompting none none ::
      (promptingAccum env "" (chunksOf env) ++
        [mkStatus env (.failed ("ollama prompting failed: " ++ e)) none none]) := by
  unfold fullTrace comicTaskTrace
  rw [he, ho]
  rfl

/-- Saving then Done is published when the image decodes. -/
theorem savedTail_eq_done (env : ComicEnv) (img : String) (bytes : List Nat)
    (hr : (renderPhase env (finalStoryboard env)).2 = .ok img)
    (hd : decode_base64_png img = .ok bytes) :
    savedTail env =
      [mkStatus env .saving (some (imgPath env (guess_image_extension bytes)))
        (some (finalStoryboard env)),
       mkStatus env .done (some (imgPath env (guess_image_extension bytes)))
        (some (finalStoryboard env))] := by
  simp only [savedTail, hr, hd]

/-- A single Failed write is published when image generation fails. -/
theorem savedTail_eq_genfail (env : ComicEnv) (e : String)
    (hr : (renderPhase env (finalStoryboard env)).2 = .error e) :
    savedTail env =
      [mkStatus env (.failed ("image generation failed: " ++ e)) none
        (some (finalStoryboard env))] := by
  simp only [savedTail, hr]

/-- The last write of a successful-prompting trace is the last write of
its post-rendering tail (two-element case). -/
theorem trace_getLast_two (env : ComicEnv) (t0 : String) (s1 s2 : ComicJobStatus)
    (he : env.entryBody = .ok t0) (ho : ollamaResultOf env = .ok ())
    (htail : savedTail env = [s1, s2]) :
    (fullTrace env).getLast? = some s2 := by
  rw [trace_eq_of_ok env t0 he ho, htail]
  have hsplit : mkStatus env .queued none none :: mkStatus env .parsing none none ::
      mkStatus env .storyboarding none none :: mkStatus env .prompting none none ::
      (promptingAccum env "" (chunksOf env) ++
        (mkStatus env (.rendering 1 1) none (some (finalStoryboard env)) ::
          ((renderPhase env (finalStoryboard env)).1 ++ [s1, s2]))) =
      (mkStatus env .queued none none :: mkStatus env .parsing none none ::
        mkStatus env .storyboarding none none :: mkStatus env .prompting none none ::
        (promptingAccum env "" (chunksOf env) ++
          (mkStatus env (.rendering 1 1) none (some (finalStoryboard env)) ::
            ((renderPhase env (finalStoryboard env)).1 ++ [s1])))) ++ [s2] := by
    simp
  rw [hsplit, List.getLast?_concat]

/-- The last write of a successful-prompting trace is the last write of
its post-rendering tail (one-element case). -/
theorem trace_getLast_one (env : ComicEnv) (t0 : String) (s1 : ComicJobStatus)
    (he : env.entryBody = .ok t0) (ho : ollamaResultOf env = .ok ())
    (htail : savedTail env = [s1]) :
    (fullTrace env).getLast? = some s1 := by
  rw [trace_eq_of_ok env t0 he ho, htail]
  have hsplit : mkStatus env .queued none none :: mkStatus env .parsing none none ::
      mkStatus env .storyboarding none none :: mkStatus env .prompting none none ::
      (promptingAccum env "" (chunksOf env) ++
        (mkStatus env (.rendering 1 1) none (some (finalStoryboard env)) ::
          ((renderPhase env (finalStoryboard env)).1 ++ [s1]))) =
      (mkStatus env .queued none none :: mkStatus env .parsing none none ::
        mkStatus env .storyboarding none none :: mkStatus env .prompting none none ::
        (promptingAccum env "" (chunksOf env) ++
          (mkStatus env (.rendering 1 1) none (some (finalStoryboard env)) ::
            (renderPhase env (finalStoryboard env)).1))) ++ [s1] := by
    simp
  rw [hsplit, List.getLast?_concat]

/-- The last write of a prompting-failure trace is the Failed write
carrying no storyboard text. -/
theorem trace_getLast_prompt_fail (env : ComicEnv) (t0 e : String)
    (he : env.entryBody = .ok t0) (ho : ollamaResultOf env = .error e) :
    (fullTrace env).getLast? = some
      (mkStatus env (.failed ("ollama prompting failed: " ++ e)) none none) := by
  rw [trace_eq_of_prompt_fail env t0 e he ho]
  have hsplit : mkStatus env .queued none none :: mkStatus env .parsing none none ::
      mkStatus env .storyboarding none none :: mkStatus env .prompting none none ::
      (promptingAccum env "" (chunksOf env) ++
        [mkStatus env (.failed ("ollama prompting failed: " ++ e)) none none]) =
      (mkStatus env .queued none none :: mkStatus env .parsing none none ::
        mkStatus env .storyboarding none none :: mkStatus env .prompting none none ::
        promptingAccum env "" (chunksOf env)) ++
        [mkStatus env (.failed ("ollama prompting failed: " ++ e)) none none] := by
    simp
  rw [hsplit, List.getLast?_concat]

/-- Under successful entry loading and prompting, no write of the trace
is a Failed write provided the post-rendering tail has none. -/
theorem trace_no_failed (env : ComicEnv) (t0 : String)
    (he : env.entryBody = .ok t0) (ho : ollamaResultOf env = .ok ())
    (htail : ∀ s ∈ savedTail env, ∀ msg, s.stage ≠ .failed msg) :
    ∀ s ∈ fullTrace env, ∀ msg, s.stage ≠ .failed msg := by
  have hrp := renderPhase_writes env (finalStoryboard env)
  rw [trace_eq_of_ok env t0 he ho]
  intro s hs
  rcases List.mem_cons.mp hs with rfl | hs
  · exact nonfailed_of_false rfl
  rcases List.mem_cons.mp hs with rfl | hs
  · exact nonfailed_of_false rfl
  rcases List.mem_cons.mp hs with rfl | hs
  · exact nonfailed_of_false rfl
  rcases List.mem_cons.mp hs with rfl | hs
  · exact nonfailed_of_false rfl
  rcases List.mem_append.mp hs with h | h
  · rcases promptingAccum_mem env _ _ s h with ⟨t, rfl⟩
    exact nonfailed_of_false rfl
  rcases List.mem_cons.mp h with rfl | h
  · exact nonfailed_of_false rfl
  rcases List.mem_append.mp h with h | h
  · rcases hrp.2 s h with ⟨c, t, rfl, _, _⟩
    exact nonfailed_of_false rfl
  · exact htail s h

/-- C3: when the remote renderer is unconfigured, the streaming image
endpoint fails, and the non-streaming endpoint returns a decodable
image, the rendering step returns the non-streaming image (Ok), no
Failed status is ever written, and the job ends at Done. -/
theorem stream_fallback_to_once (env : ComicEnv) (e img : String) (bytes : List Nat)
    (hn : env.nanoConfigured = false)
    (he : ∃ t, env.entryBody = .ok t)
    (ho : ollamaResultOf env = .ok ())
    (hs : (gemStreamRun env.gem).2 = .error e)
    (h1 : env.geminiOnce = .ok img)
    (hd : decode_base64_png img = .ok bytes) :
    (renderPhase env (finalStoryboard env)).2 = .ok img ∧
    (∀ s ∈ fullTrace env, ∀ msg, s.stage ≠ .failed msg) ∧
    (fullTrace env).getLast? = some (mkStatus env .done
      (some (imgPath env (guess_image_extension bytes))) (some (finalStoryboard env))) := by
  obtain ⟨t0, he⟩ := he
  have hres : (renderPhase env (finalStoryboard env)).2 = .ok img := by
    rw [renderPhase_result_no_nano env (finalStoryboard env) hn,
      gwp_result_of_stream_error env.gem env.geminiOnce e hs, h1]
  have htail := savedTail_eq_done env img bytes hres hd
  refine ⟨hres, ?_, ?_⟩
  · refine trace_no_failed env t0 he ho ?_
    rw [htail]
    intro s hs'
    rcases List.mem_cons.mp hs' with rfl | hs'
    · exact nonfailed_of_false rfl
    rw [List.mem_singleton.mp hs']
    exact nonfailed_of_false rfl
  · exact trace_getLast_two env t0 _ _ he ho htail

/-- Witness for C3 at the concrete no-renderer, empty-stream, "Zm9v"
scenario. -/
theorem stream_fallback_to_once_witness :
    (renderPhase envC3 (finalStoryboard envC3)).2 = .ok "Zm9v" ∧
    (∀ s ∈ fullTrace envC3, ∀ msg, s.stage ≠ .failed msg) ∧
    (fullTrace envC3).getLast? = some (mkStatus envC3 .done
      (some (imgPath envC3 (guess_image_extension [102, 111, 111])))
      (some (finalStoryboard envC3))) :=
  stream_fallback_to_once envC3 "gemini stream: no image data received" "Zm9v"
    [102, 111, 111] rfl ⟨"entry text", rfl⟩ rfl rfl rfl rfl

/-- C6 counterexample: with all three provider attempts failing (remote
renderer: NANOCAUSE, streaming: STREAMCAUSE, non-streaming: ONCECAUSE),
the recorded Failed error contains the renderer's and the non-streaming
attempt's causes but not the streaming attempt's cause, contradicting
the claim that all attempted providers' causes are concatenated. -/
theorem allfail_error_drops_stream_cause :
    (fullTrace envC6).getLast? = some (mkStatus envC6 (.failed errC6) none (some "")) ∧
    containsSub "NANOCAUSE" errC6 = true ∧
    containsSub "ONCECAUSE" errC6 = true ∧
    containsSub "STREAMCAUSE" errC6 = false :=
  ⟨rfl, by decide, by decide, by decide⟩

/-- C6 amended: when the remote renderer fails and both Gemini attempts
fail, the recorded Failed error concatenates the renderer's cause and
the non-streaming attempt's cause; the streaming attempt's cause is
discarded by the fallback. -/
theorem allfail_error_concat (env : ComicEnv) (t0 nanoErr streamErr onceErr : String)
    (he : env.entryBody = .ok t0)
    (ho : ollamaResultOf env = .ok ())
    (hn : env.nanoConfigured = true)
    (hnr : env.nanoResult = .error nanoErr)
    (hs : (gemStreamRun env.gem).2 = .error streamErr)
    (h1 : env.geminiOnce = .error onceErr) :
    (fullTrace env).getLast? = some (mkStatus env
      (.failed ("image generation failed: " ++
        ("nano-banana failed: " ++ nanoErr ++ "; gemini fallback failed: " ++
          ("gemini image failed: " ++ onceErr)))) none
      (some (finalStoryboard env))) := by
  have hg : (generate_image_with_progress env.gem env.geminiOnce).2 =
      .error ("gemini image failed: " ++ onceErr) := by
    rw [gwp_result_of_stream_error env.gem env.geminiOnce streamErr hs, h1]
  have hres := renderPhase_result_nano_fallback env (finalStoryboard env) nanoErr
    ("gemini image failed: " ++ onceErr) hn hnr hg
  have htail := savedTail_eq_genfail env _ hres
  exact trace_getLast_one env t0 _ he ho htail

/-- Witness for C6 amended at the concrete all-fail scenario. -/
theorem allfail_error_concat_witness :
    (fullTrace envC6).getLast? = some (mkStatus envC6
      (.failed ("image generation failed: " ++
        ("nano-banana failed: " ++ "NANOCAUSE" ++ "; gemini fallback failed: " ++
          ("gemini image failed: " ++ "ONCECAUSE")))) none
      (some (finalStoryboard envC6))) :=
  allfail_error_concat envC6 "entry text" "NANOCAUSE" "gemini stream error: STREAMCAUSE"
    "ONCECAUSE" rfl rfl rfl rfl rfl rfl

/-- Filtering the prompting republications for the Prompting stage keeps
them all. -/
theorem filter_promptingAccum (env : ComicEnv) : ∀ (cs : List String) (acc : String),
    (promptingAccum env acc cs).filter (fun s => isPromptingStage s.stage)
      = promptingAccum env acc cs
  | [], _ => rfl
  | c :: rest, acc => by
    rw [promptingAccum]
    have h1 : (mkStatus env .prompting none (some (acc ++ c)) ::
        promptingAccum env (acc ++ c) rest).filter (fun s => isPromptingStage s.stage)
        = mkStatus env .prompting none (some (acc ++ c)) ::
          (promptingAccum env (acc ++ c) rest).filter (fun s => isPromptingStage s.stage) :=
      rfl
    rw [h1, filter_promptingAccum env rest (acc ++ c)]

/-- No write from the first Rendering write onward has the Prompting
stage. -/
theorem filter_render_block_nil (env : ComicEnv) :
    (mkStatus env (.rendering 1 1) none (some (finalStoryboard env)) ::
      ((renderPhase env (finalStoryboard env)).1 ++ savedTail env)).filter
      (fun s => isPromptingStage s.stage) = [] := by
  have hrp := renderPhase_writes env (finalStoryboard env)
  have htl := savedTail_facts env
  apply List.filter_eq_nil_iff.mpr
  intro a ha
  rcases List.mem_cons.mp ha with rfl | ha
  · exact fun hh => nomatch hh
  rcases List.mem_append.mp ha with h | h
  · rcases hrp.2 a h with ⟨c, t, rfl, _, _⟩
    exact fun hh => nomatch hh
  · intro hh
    have hpr := eq_prompting_of_isPrompting hh
    have h5 := (htl.2 a h).1
    rw [hpr] at h5
    exact absurd h5 (by decide)

/-- The Prompting-stage writes of any trace grow the storyboard text
monotonically: each published value extends the previous one. -/
theorem trace_prompting_filter_chain (env : ComicEnv) :
    List.Chain' (fun a b => sbStep a.storyboard_text b.storyboard_text)
      ((fullTrace env).filter fun s => isPromptingStage s.stage) := by
  cases hee : env.entryBody with
  | error e =>
    have htr : fullTrace env = [mkStatus env .queued none none,
        mkStatus env .parsing none none, mkStatus env .storyboarding none none,
        mkStatus env (.failed ("load entry failed: " ++ e)) none none] := by
      unfold fullTrace comicTaskTrace
      rw [hee]
    rw [htr]
    exact List.chain'_nil
  | ok t0 =>
    cases hoo : ollamaResultOf env with
    | error e =>
      rw [trace_eq_of_prompt_fail env t0 e hee hoo]
      show List.Chain' _ (mkStatus env .prompting none none ::
        (promptingAccum env "" (chunksOf env) ++
          [mkStatus env (.failed ("ollama prompting failed: " ++ e)) none none]).filter
          (fun s => isPromptingStage s.stage))
      rw [List.filter_append, filter_promptingAccum]
      show List.Chain' _ (mkStatus env .prompting none none ::
        (promptingAccum env "" (chunksOf env) ++ []))
      rw [List.append_nil, List.chain'_cons']
      exact ⟨fun y hy => trivial, promptingAccum_chain env _ _⟩
    | ok u =>
      rw [trace_eq_of_ok env t0 hee hoo]
      show List.Chain' _ (mkStatus env .prompting none none ::
        (promptingAccum env "" (chunksOf env) ++
          (mkStatus env (.rendering 1 1) none (some (finalStoryboard env)) ::
            ((renderPhase env (finalStoryboard env)).1 ++ savedTail env))).filter
          (fun s => isPromptingStage s.stage))
      rw [List.filter_append, filter_promptingAccum, filter_render_block_nil,
        List.append_nil, List.chain'_cons']
      exact ⟨fun y hy => trivial, promptingAccum_chain env _ _⟩

/-- After successful prompting, every write from the Rendering stage
onward (including any later Failed write) carries the full accumulated
storyboard text. -/
theorem trace_freeze_of_ok (env : ComicEnv) (t0 : String)
    (he : env.entryBody = .ok t0) (ho : ollamaResultOf env = .ok ()) :
    ∀ s ∈ fullTrace env, 4 ≤ stageRank s.stage →
      s.storyboard_text = some (finalStoryboard env) := by
  have hrp := renderPhase_writes env (finalStoryboard env)
  have htl := savedTail_facts env
  rw [trace_eq_of_ok env t0 he ho]
  intro s hs hr
  rcases List.mem_cons.mp hs with rfl | hs
  · exact absurd hr (show ¬(4 ≤ (0 : Nat)) by decide)
  rcases List.mem_cons.mp hs with rfl | hs
  · exact absurd hr (show ¬(4 ≤ (1 : Nat)) by decide)
  rcases List.mem_cons.mp hs with rfl | hs
  · exact absurd hr (show ¬(4 ≤ (2 : Nat)) by decide)
  rcases List.mem_cons.mp hs with rfl | hs
  · exact absurd hr (show ¬(4 ≤ (3 : Nat)) by decide)
  rcases List.mem_append.mp hs with h | h
  · rcases promptingAccum_mem env _ _ s h with ⟨t, rfl⟩
    exact absurd hr (show ¬(4 ≤ (3 : Nat)) by decide)
  rcases List.mem_cons.mp h with rfl | h
  · rfl
  rcases List.mem_append.mp h with h | h
  · rcases hrp.2 s h with ⟨c, t, rfl, _, _⟩
    rfl
  · exact (htl.2 s h).2.2

/-- C8 counterexample: in the job whose prompting stream delivers "abc"
and then fails, the last Prompting write publishes Some "abc", yet the
subsequent Failed write publishes no storyboard text — the freeze
property of the claim is violated. -/
theorem storyboard_dropped_on_prompt_fail : ¬ storyboardFreezes (fullTrace envC8) := by
  intro h
  have hq := h
    [mkStatus envC8 .queued none none, mkStatus envC8 .parsing none none,
     mkStatus envC8 .storyboarding none none, mkStatus envC8 .prompting none none]
    (mkStatus envC8 .prompting none (some "abc"))
    [mkStatus envC8 (.failed "ollama prompting failed: stream error: boom") none none]
    rfl rfl
    (by
      intro q hq
      rw [List.mem_singleton.mp hq]
      exact fun hh => nomatch hh)
    (mkStatus envC8 (.failed "ollama prompting failed: stream error: boom") none none)
    (List.mem_singleton.mpr rfl)
  nomatch hq

/-- C8 amended: the storyboard text grows monotonically while Prompting
(each published value extends the previous); if Prompting succeeds,
every later status — Rendering, Saving, Done, and any later Failed —
carries Some of the full accumulated storyboard text; but if the
prompting stream itself fails, the Failed status carries no storyboard
text (None) instead of the last published partial text. -/
theorem storyboard_growth_and_freeze (env : ComicEnv) :
    List.Chain' (fun a b => sbStep a.storyboard_text b.storyboard_text)
      ((fullTrace env).filter fun s => isPromptingStage s.stage) ∧
    (∀ t0, env.entryBody = .ok t0 → ollamaResultOf env = .ok () →
      ∀ s ∈ fullTrace env, 4 ≤ stageRank s.stage →
        s.storyboard_text = some (finalStoryboard env)) ∧
    (∀ t0 e, env.entryBody = .ok t0 → ollamaResultOf env = .error e →
      (fullTrace env).getLast? = some
        (mkStatus env (.failed ("ollama prompting failed: " ++ e)) none none)) :=
  ⟨trace_prompting_filter_chain env,
   fun t0 he ho => trace_freeze_of_ok env t0 he ho,
   fun t0 e he ho => trace_getLast_prompt_fail env t0 e he ho⟩

/-- Witness for C8 amended at the chunk-then-failure scenario. -/
theorem storyboard_growth_and_freeze_witness :
    List.Chain' (fun a b => sbStep a.storyboard_text b.storyboard_text)
      ((fullTrace envC8).filter fun s => isPromptingStage s.stage) ∧
    (fullTrace envC8).getLast? = some
      (mkStatus envC8 (.failed ("ollama prompting failed: " ++ "stream error: boom"))
        none none) :=
  ⟨(storyboard_growth_and_freeze envC8).1,
   (storyboard_growth_and_freeze envC8).2.2 "entry text" "stream error: boom" rfl rfl⟩

end Toonana
